import Mathlib

/-!
# Verification of the render-hints signaling component and the
# audio-capture workaround of twilio-video.js

The render-hints signaling component (`RenderHintsSignaling`) batches
per-track rendering hints, keeps a dirty set, and enforces a
single-outstanding-request discipline over a data transport.  The
audio-capture workaround (`src/lib/webaudio/workaround180748.js`) is a
bounded retry loop around `getUserMedia` with silence detection.

JavaScript `Map`s and `Set`s preserve insertion order and keep the
original position when an existing key is re-inserted; we model them as
association lists / duplicate-guarded lists.
-/

namespace RenderHints

/-- Modelled from the spec: desired decode/render resolution
(`renderDimension` of a `TrackHintState`); the implementation file
`lib/signaling/v2/renderhintssignaling.js` is not part of the provided
sources, so the data model follows §3 of the spec. -/
structure RenderDimension where
  width : Nat
  height : Nat
deriving DecidableEq, Repr

/-- Modelled from the spec: per-track record of §3 — `enabled` and
`renderDimension` are optional and start unset. -/
structure TrackHintState where
  enabled : Option Bool
  renderDimension : Option RenderDimension
deriving DecidableEq, Repr

/-- Modelled from the spec: a freshly created `TrackHintState` has no
fields set. -/
def emptyHintState : TrackHintState :=
  { enabled := none, renderDimension := none }

/-- Modelled from the spec: a partial update supplied to `sendTrackHint`;
fields not supplied are `none`. -/
structure Patch where
  enabled : Option Bool := none
  renderDimension : Option RenderDimension := none
deriving DecidableEq, Repr

/-- Modelled from the spec: partial updates merge into existing state —
"fields not supplied are left unchanged", later patches overwrite only the
fields they specify (§3). -/
def mergePatch (st : TrackHintState) (p : Patch) : TrackHintState :=
  { enabled := match p.enabled with
      | some b => some b
      | none => st.enabled,
    renderDimension := match p.renderDimension with
      | some d => some d
      | none => st.renderDimension }

/-- Modelled from the spec: the `TrackHints` map, an insertion-ordered
association list from `trackSid` to `TrackHintState`. -/
def TrackHints : Type := List (String × TrackHintState)

/-- Lookup of a `trackSid` in the `TrackHints` association list. -/
def lookupHint : List (String × TrackHintState) → String → Option TrackHintState
  | [], _ => none
  | (s, st) :: rest, sid => if s = sid then some st else lookupHint rest sid

/-- Modelled from the spec: `sendTrackHint` "merges patch fields into the
stored `TrackHintState` for `trackSid` (creating the record if absent)";
an existing key keeps its position, as a JavaScript `Map` does. -/
def updateHints : List (String × TrackHintState) → String → Patch → List (String × TrackHintState)
  | [], sid, p => [(sid, mergePatch emptyHintState p)]
  | (s, st) :: rest, sid, p =>
      if s = sid then (s, mergePatch st p) :: rest
      else (s, st) :: updateHints rest sid p

/-- Modelled from the spec: adding to the `DirtySet` — insertion order is
preserved, and re-adding an element already present keeps its original
position (JavaScript `Set.add`). -/
def dirtyAdd (d : List String) (sid : String) : List String :=
  if sid ∈ d then d else d ++ [sid]

/-- Modelled from the spec: after a flush, "remove exactly the snapshotted
track identifiers from `DirtySet`" — elements not in the snapshot remain. -/
def removeAll (d snapshot : List String) : List String :=
  d.filter fun x => x ∉ snapshot

/-- Modelled from the spec: on publish failure the snapshotted identifiers
are returned to the `DirtySet`, "merge back rather than overwrite" (§4
failure semantics). -/
def restoreDirty (current snapshot : List String) : List String :=
  snapshot.foldl dirtyAdd current

/-- Modelled from the spec: serialized hint of the outbound wire message —
`track_sid` plus the optional fields currently set in the track's
`TrackHintState` (§4, §6). -/
structure WireHint where
  track_sid : String
  enabled : Option Bool
  render_dimension : Option RenderDimension
deriving DecidableEq, Repr

/-- Modelled from the spec: serialization of one track's state into a wire
hint — "field presence mirrors which fields are currently set in its
`TrackHintState`". -/
def makeWireHint (sid : String) (st : TrackHintState) : WireHint :=
  { track_sid := sid, enabled := st.enabled, render_dimension := st.renderDimension }

/-- Modelled from the spec: outbound message
`{type, subscriber: {id, hints}}` (§6), flattened. -/
structure OutboundMessage where
  type : String
  id : Nat
  hints : List WireHint
deriving DecidableEq, Repr

/-- Modelled from the spec: per-track result entry of an inbound reply
(§6), e.g. result `OK` or `INVALID_RENDER_HINT`. -/
structure InboundHintResult where
  track_sid : String
  result : String
deriving DecidableEq, Repr

/-- Modelled from the spec: inbound transport message
`{type, subscriber: {id, hints}}` (§6), flattened. -/
structure InboundMessage where
  type : String
  id : Nat
  hints : List InboundHintResult
deriving DecidableEq, Repr

/-- Modelled from the spec: the two states of the flush state machine
(§4): `idle` (no request outstanding) and `awaitingReply` (one batch
transmitted, no qualifying inbound message seen yet). -/
inductive FlushState where
  | idle
  | awaitingReply
deriving DecidableEq, Repr

/-- Modelled from the spec: the component state — transport handle
(starts unbound / `null`), readiness flag, flush state machine, the
`TrackHints` map, the `DirtySet`, the fresh-id counter, the list of
published messages, and the log. -/
structure SignalingState where
  transport : Bool
  readyEmitted : Bool
  flushState : FlushState
  trackHints : List (String × TrackHintState)
  dirtyTracks : List String
  nextId : Nat
  sent : List OutboundMessage
  logs : List String
deriving DecidableEq, Repr

/-- Modelled from the spec: state at construction — transport reference
`null`, state machine `IDLE`, empty maps, nothing published. -/
def initState : SignalingState :=
  { transport := false, readyEmitted := false, flushState := FlushState.idle,
    trackHints := [], dirtyTracks := [], nextId := 1, sent := [], logs := [] }

/-- Modelled from the spec: the flush attempt (§4).  A flush proceeds only
when the transport is bound, the state machine is `IDLE` and the
`DirtySet` is non-empty; it snapshots the `DirtySet` in insertion order,
builds one outbound `render_hints` message with a fresh id, publishes it,
removes exactly the snapshotted identifiers from the `DirtySet` and moves
to `AWAITING_REPLY`.  `ok` tells whether the publish succeeded; on failure
the attempt behaves as if it never left `IDLE`: the snapshotted
identifiers are merged back into the `DirtySet` and the failure is
logged — no exception is surfaced (the function is total). -/
def attemptFlush (s : SignalingState) (ok : Bool) : SignalingState :=
  if s.transport = true ∧ s.flushState = FlushState.idle ∧ s.dirtyTracks ≠ [] then
    let snapshot := s.dirtyTracks
    let hints := snapshot.map fun sid =>
      makeWireHint sid ((lookupHint s.trackHints sid).getD emptyHintState)
    let msg : OutboundMessage := { type := "render_hints", id := s.nextId, hints := hints }
    if ok then
      { s with flushState := FlushState.awaitingReply,
               dirtyTracks := removeAll s.dirtyTracks snapshot,
               nextId := s.nextId + 1,
               sent := s.sent ++ [msg] }
    else
      { s with dirtyTracks := restoreDirty (removeAll s.dirtyTracks snapshot) snapshot,
               logs := s.logs ++ ["publish failed"] }
  else s

/-- Modelled from the spec: the externally triggered operations — a
`sendTrackHint` call (with the success flag of the flush it may trigger),
a `deleteTrackState` call, resolution of the transport acquisition with a
`kind` discriminator, and arrival of an inbound transport message. -/
inductive Op where
  | send (sid : String) (p : Patch) (ok : Bool)
  | delete (sid : String)
  | ready (kind : String) (ok : Bool)
  | message (m : InboundMessage) (ok : Bool)
deriving DecidableEq

/-- Whether an operation touches the given `trackSid`. -/
def touches (op : Op) (x : String) : Bool :=
  match op with
  | Op.send sid _ _ => sid = x
  | Op.delete sid => sid = x
  | _ => false

/-- Modelled from the spec: the single-threaded event semantics (§4, §5).
`sendTrackHint` merges the patch, marks the track dirty, then attempts a
flush; `deleteTrackState` removes the track from both maps and nothing
else; transport resolution with kind `data` binds the transport exactly
once, emits `ready` and attempts a flush; an inbound message of type
`render_hints` moves the machine to `IDLE` and immediately attempts a
flush, any other inbound message is ignored. -/
def step (s : SignalingState) : Op → SignalingState
  | Op.send sid p ok =>
      attemptFlush { s with trackHints := updateHints s.trackHints sid p,
                            dirtyTracks := dirtyAdd s.dirtyTracks sid } ok
  | Op.delete sid =>
      { s with trackHints := s.trackHints.filter fun q => q.1 ≠ sid,
               dirtyTracks := s.dirtyTracks.filter fun t => t ≠ sid }
  | Op.ready kind ok =>
      if kind = "data" ∧ s.transport = false then
        attemptFlush { s with transport := true, readyEmitted := true } ok
      else s
  | Op.message m ok =>
      if m.type = "render_hints" then
        attemptFlush { s with flushState := FlushState.idle } ok
      else s

/-- Running a sequence of operations from a state. -/
def run (s : SignalingState) : List Op → SignalingState
  | [] => s
  | op :: ops => run (step s op) ops

/-- The outbound message a flush of state `s` would publish: a fresh-id
`render_hints` envelope whose hints serialize, in dirty-insertion order,
the current `TrackHintState` of every dirty track. -/
def batchMsg (s : SignalingState) : OutboundMessage :=
  { type := "render_hints", id := s.nextId,
    hints := s.dirtyTracks.map fun sid =>
      makeWireHint sid ((lookupHint s.trackHints sid).getD emptyHintState) }

/-- Whether an operation is the arrival of an inbound message of type
`render_hints` — the only event that unblocks `AWAITING_REPLY`. -/
def isReply : Op → Bool
  | Op.message m _ => m.type = "render_hints"
  | _ => false

/-- The outbound message carries no hint for track `x`. -/
def noHintFor (x : String) (msg : OutboundMessage) : Prop :=
  ∀ h ∈ msg.hints, h.track_sid ≠ x

/-- The `TrackHintState` built by folding a sequence of partial patches
into a fresh record. -/
def applyPatches (ps : List Patch) : TrackHintState :=
  ps.foldl mergePatch emptyHintState

/-- First patch of Scenario A (§8): `foo` enabled at 100×100. -/
def patchFoo1 : Patch :=
  { enabled := some true, renderDimension := some { width := 100, height := 100 } }

/-- Second patch of Scenario A: `bar` disabled at 100×100. -/
def patchBar1 : Patch :=
  { enabled := some false, renderDimension := some { width := 100, height := 100 } }

/-- Third patch of Scenario A: `foo` enabled at 101×101. -/
def patchFoo2 : Patch :=
  { enabled := some true, renderDimension := some { width := 101, height := 101 } }

/-- Scenario A of §8: the three `sendTrackHint` calls happen before the
transport resolves ("before any flush resolves"), then the transport
binds with kind `data` and the accumulated batch flushes. -/
def scenarioA : SignalingState :=
  run initState [Op.send "foo" patchFoo1 true, Op.send "bar" patchBar1 true,
                 Op.send "foo" patchFoo2 true, Op.ready "data" true]

/-- A bound component awaiting a reply with one track (`bar`) marked
dirty while the request is outstanding — the situation of Scenario B
after the first publish. -/
def sAwait : SignalingState :=
  { transport := true, readyEmitted := true, flushState := FlushState.awaitingReply,
    trackHints := [("foo", { enabled := some true, renderDimension := none }),
                   ("boo", { enabled := some false, renderDimension := none }),
                   ("bar", { enabled := some true,
                             renderDimension := some { width := 200, height := 200 } })],
    dirtyTracks := ["bar"], nextId := 2, sent := [], logs := [] }

/-- The inbound server reply of Scenario B: subscriber id 42, per-track
results `OK` and `INVALID_RENDER_HINT`. -/
def serverReply : InboundMessage :=
  { type := "render_hints", id := 42,
    hints := [{ track_sid := "foo", result := "OK" },
              { track_sid := "boo", result := "INVALID_RENDER_HINT" }] }

/-- A bound idle state with one dirty track, used to exercise the publish
failure path. -/
def sFail : SignalingState :=
  { transport := true, readyEmitted := true, flushState := FlushState.idle,
    trackHints := [("foo", { enabled := some true, renderDimension := none })],
    dirtyTracks := ["foo"], nextId := 1, sent := [], logs := [] }

/-- Scenario C of §8: `sendTrackHint` for `foo` before the transport is
ready, so no flush has happened yet. -/
def sScenC : SignalingState :=
  step initState (Op.send "foo" patchFoo1 true)

/-- Operations after the deletion in Scenario C: the transport binds and
an unrelated track is hinted — none touches `foo`. -/
def opsScenC : List Op :=
  [Op.ready "data" true, Op.send "bar" patchBar1 true]

end RenderHints

namespace Workaround180748

/-- Outcome of one `getUserMedia` + silence-detection attempt in
`workaround180748.js`: `getUserMedia` rejected with an error, or it
resolved and the stream was detected as silent (a `detectSilence` failure
is caught and counts as silent, per the `.catch` on line 40), or it
resolved and the stream was not silent. -/
inductive AttemptResult where
  | gumError (e : String)
  | silent
  | nonSilent
deriving DecidableEq, Repr

/-- `n = typeof n === 'number' ? n : 3` (line 27): a non-number argument
defaults the retry budget to 3. -/
def defaultRetries : Option Int → Int
  | some k => k
  | none => 3

/-- The recursive `doWorkaround` of `workaround180748.js` (lines 37-59).
`o` gives the outcome of each successive attempt, `audio` is
`constraints.audio`, `attempt` numbers the current `getUserMedia` call,
`n` is the remaining retry budget.  Returns the number of `getUserMedia`
calls made and either the returned stream (identified by the index of the
attempt that produced it) or the propagated `getUserMedia` error.  When
`constraints.audio` is falsy the silence check is skipped
(`Promise.resolve(false)`, line 41); a silent stream is retried only when
`n > 0`, decrementing `n` (lines 46-56). -/
def doWorkaround (o : Nat → AttemptResult) (audio : Bool) (attempt : Nat) (n : Int) :
    Nat × Except String Nat :=
  match o attempt with
  | AttemptResult.gumError e => (1, Except.error e)
  | AttemptResult.silent =>
      if audio then
        if n ≤ 0 then (1, Except.ok attempt)
        else
          let r := doWorkaround o audio (attempt + 1) (n - 1)
          (1 + r.1, r.2)
      else (1, Except.ok attempt)
  | AttemptResult.nonSilent => (1, Except.ok attempt)
termination_by n.toNat
decreasing_by
  simp_wf
  omega

/-- Resource events on the `AudioContextFactory` holder. -/
inductive REvent where
  | acquire
  | release
deriving DecidableEq, Repr

/-- The outer `workaround` function (lines 26-68): acquires the
`AudioContext` holder, runs `doWorkaround` with the (possibly defaulted)
retry budget, and on either completion path releases the holder exactly
once — on success resolving with the stream, on failure rethrowing the
original error unchanged.  Returns the result together with the trace of
acquire/release events on the holder. -/
def workaround (o : Nat → AttemptResult) (audio : Bool) (nOpt : Option Int) :
    (Nat × Except String Nat) × List REvent :=
  let n := defaultRetries nOpt
  let r := doWorkaround o audio 0 n
  match r.2 with
  | Except.ok s => ((r.1, Except.ok s), [REvent.acquire] ++ [REvent.release])
  | Except.error e => ((r.1, Except.error e), [REvent.acquire] ++ [REvent.release])

end Workaround180748

namespace RenderHints

theorem mem_dirtyAdd (d : List String) (a x : String) :
    x ∈ dirtyAdd d a ↔ x ∈ d ∨ x = a := by
  unfold dirtyAdd
  split <;> rename_i h
  · constructor
    · exact fun hx => Or.inl hx
    · rintro (hx | rfl)
      · exact hx
      · exact h
  · simp

theorem mem_restoreDirty (current snapshot : List String) (x : String) :
    x ∈ restoreDirty current snapshot ↔ x ∈ current ∨ x ∈ snapshot := by
  induction snapshot generalizing current with
  | nil => simp [restoreDirty]
  | cons a rest ih =>
      unfold restoreDirty at ih ⊢
      simp only [List.foldl_cons, ih, mem_dirtyAdd, List.mem_cons]
      tauto

theorem mem_removeAll (d snapshot : List String) (x : String) :
    x ∈ removeAll d snapshot ↔ x ∈ d ∧ x ∉ snapshot := by
  simp [removeAll]

theorem attemptFlush_trackHints (s : SignalingState) (ok : Bool) :
    (attemptFlush s ok).trackHints = s.trackHints := by
  unfold attemptFlush
  split
  · split <;> rfl
  · rfl

theorem attemptFlush_transport (s : SignalingState) (ok : Bool) :
    (attemptFlush s ok).transport = s.transport := by
  unfold attemptFlush
  split
  · split <;> rfl
  · rfl

theorem attemptFlush_of_awaiting (s : SignalingState) (ok : Bool)
    (h : s.flushState = FlushState.awaitingReply) : attemptFlush s ok = s := by
  unfold attemptFlush
  split <;> rename_i hc
  · rw [h] at hc
    exact absurd hc.2.1 (by simp)
  · rfl

theorem attemptFlush_of_no_transport (s : SignalingState) (ok : Bool)
    (h : s.transport = false) : attemptFlush s ok = s := by
  unfold attemptFlush
  split <;> rename_i hc
  · rw [h] at hc
    exact absurd hc.1 (by simp)
  · rfl

theorem attemptFlush_sent_grows (s : SignalingState) (ok : Bool)
    (h : (attemptFlush s ok).sent ≠ s.sent) :
    (attemptFlush s ok).flushState = FlushState.awaitingReply := by
  unfold attemptFlush at h ⊢
  split at h <;> rename_i hc
  · split at h <;> rename_i hok
    · simp [hc, hok]
    · exact absurd rfl h
  · exact absurd rfl h

theorem attemptFlush_dirty_not_mem (s : SignalingState) (ok : Bool) (x : String)
    (h : x ∉ s.dirtyTracks) : x ∉ (attemptFlush s ok).dirtyTracks := by
  unfold attemptFlush
  split
  · split
    · simp only [mem_removeAll]
      exact fun hx => h hx.1
    · simp only [mem_restoreDirty, mem_removeAll]
      rintro (⟨hx, _⟩ | hx) <;> exact h hx
  · exact h

theorem attemptFlush_sent_fresh (s : SignalingState) (ok : Bool) (msg : OutboundMessage)
    (h : msg ∈ (attemptFlush s ok).sent) :
    msg ∈ s.sent ∨ msg.hints = s.dirtyTracks.map fun sid =>
      makeWireHint sid ((lookupHint s.trackHints sid).getD emptyHintState) := by
  unfold attemptFlush at h
  split at h <;> rename_i hc
  · split at h <;> rename_i hok
    · simp only [List.mem_append, List.mem_singleton] at h
      rcases h with h | h
      · exact Or.inl h
      · exact Or.inr (by rw [h])
    · exact Or.inl h
  · exact Or.inl h

theorem lookupHint_updateHints_self (h : List (String × TrackHintState)) (sid : String) (p : Patch) :
    lookupHint (updateHints h sid p) sid
      = some (mergePatch ((lookupHint h sid).getD emptyHintState) p) := by
  induction h with
  | nil => simp [updateHints, lookupHint]
  | cons q rest ih =>
      obtain ⟨s, st⟩ := q
      by_cases hs : s = sid
      · subst hs
        simp [updateHints, lookupHint]
      · simp [updateHints, lookupHint, hs, ih]

theorem lookupHint_updateHints_ne (h : List (String × TrackHintState)) (t sid : String) (p : Patch)
    (hne : t ≠ sid) : lookupHint (updateHints h t p) sid = lookupHint h sid := by
  induction h with
  | nil => simp [updateHints, lookupHint, hne]
  | cons q rest ih =>
      obtain ⟨s, st⟩ := q
      by_cases hs : s = t
      · subst hs
        simp [updateHints, lookupHint, hne]
      · simp [updateHints, lookupHint, hs, ih]

theorem lookupHint_filter_self (h : List (String × TrackHintState)) (sid : String) :
    lookupHint (h.filter fun q => q.1 ≠ sid) sid = none := by
  induction h with
  | nil => simp [lookupHint]
  | cons q rest ih =>
      obtain ⟨s, st⟩ := q
      by_cases hs : s = sid
      · subst hs
        simpa using ih
      · simp only [List.filter_cons]
        simp only [ne_eq, hs, not_false_iff, decide_True]
        simpa [lookupHint, hs] using ih

theorem lookupHint_filter_ne (h : List (String × TrackHintState)) (t sid : String)
    (hne : t ≠ sid) : lookupHint (h.filter fun q => q.1 ≠ t) sid = lookupHint h sid := by
  induction h with
  | nil => simp [lookupHint]
  | cons q rest ih =>
      obtain ⟨s, st⟩ := q
      by_cases hs : s = t
      · subst hs
        simpa [lookupHint, hne] using ih
      · simp only [List.filter_cons]
        simp only [ne_eq, hs, not_false_iff, decide_True]
        by_cases hs2 : s = sid
        · subst hs2
          simp [lookupHint]
        · simpa [lookupHint, hs2] using ih

theorem removeAll_self (d : List String) : removeAll d d = [] := by
  rw [removeAll, List.filter_eq_nil_iff]
  intro a ha
  simp [ha]

theorem attemptFlush_of_empty_dirty (s : SignalingState) (ok : Bool)
    (h : s.dirtyTracks = []) : attemptFlush s ok = s := by
  unfold attemptFlush
  split <;> rename_i hc
  · exact absurd h hc.2.2
  · rfl

theorem attemptFlush_publishes (s : SignalingState)
    (h1 : s.transport = true) (h2 : s.flushState = FlushState.idle)
    (h3 : s.dirtyTracks ≠ []) :
    attemptFlush s true
      = { s with flushState := FlushState.awaitingReply,
                 dirtyTracks := [],
                 nextId := s.nextId + 1,
                 sent := s.sent ++ [batchMsg s] } := by
  unfold attemptFlush
  rw [if_pos ⟨h1, h2, h3⟩, if_pos rfl, removeAll_self]
  rfl

theorem attemptFlush_readyEmitted (s : SignalingState) (ok : Bool) :
    (attemptFlush s ok).readyEmitted = s.readyEmitted := by
  unfold attemptFlush
  split
  · split <;> rfl
  · rfl

theorem step_transport_mono (s : SignalingState) (op : Op)
    (h : s.transport = true) : (step s op).transport = true := by
  cases op with
  | send sid p ok => rw [step, attemptFlush_transport]; exact h
  | delete sid => exact h
  | ready kind ok =>
      rw [step]
      split <;> rename_i hc
      · rw [h] at hc
        exact absurd hc.2 (by simp)
      · exact h
  | message m ok =>
      rw [step]
      split
      · rw [attemptFlush_transport]; exact h
      · exact h

theorem step_unbound (s : SignalingState) (op : Op)
    (h : s.transport = false) (hop : ∀ k o, op ≠ Op.ready k o) :
    (step s op).transport = false ∧ (step s op).sent = s.sent := by
  cases op with
  | send sid p ok =>
      rw [step, attemptFlush_of_no_transport _ _ (by exact h)]
      exact ⟨h, rfl⟩
  | delete sid => exact ⟨h, rfl⟩
  | ready kind ok => exact absurd rfl (hop kind ok)
  | message m ok =>
      rw [step]
      split
      · rw [attemptFlush_of_no_transport _ _ (by exact h)]
        exact ⟨h, rfl⟩
      · exact ⟨h, rfl⟩

theorem run_unbound (s : SignalingState) (ops : List Op)
    (h : s.transport = false) (hops : ∀ op ∈ ops, ∀ k o, op ≠ Op.ready k o) :
    (run s ops).transport = false ∧ (run s ops).sent = s.sent := by
  induction ops generalizing s with
  | nil => exact ⟨h, rfl⟩
  | cons op rest ih =>
      have h1 := step_unbound s op h (hops op (by simp))
      have h2 := ih (step s op) h1.1 fun o ho => hops o (by simp [ho])
      rw [run]
      exact ⟨h2.1, h2.2.trans h1.2⟩

theorem step_awaiting (t : SignalingState) (op : Op)
    (ht : t.flushState = FlushState.awaitingReply) (hop : isReply op = false) :
    (step t op).sent = t.sent ∧ (step t op).flushState = FlushState.awaitingReply := by
  cases op with
  | send sid p ok =>
      rw [step, attemptFlush_of_awaiting _ _ (by exact ht)]
      exact ⟨rfl, ht⟩
  | delete sid => exact ⟨rfl, ht⟩
  | ready kind ok =>
      rw [step]
      split
      · rw [attemptFlush_of_awaiting _ _ (by exact ht)]
        exact ⟨rfl, ht⟩
      · exact ⟨rfl, ht⟩
  | message m ok =>
      rw [step]
      split <;> rename_i hm
      · exfalso
        simp [isReply, hm] at hop
      · exact ⟨rfl, ht⟩

theorem run_awaiting (t : SignalingState) (ops : List Op)
    (ht : t.flushState = FlushState.awaitingReply) (hops : ∀ op ∈ ops, isReply op = false) :
    (run t ops).sent = t.sent ∧ (run t ops).flushState = FlushState.awaitingReply := by
  induction ops generalizing t with
  | nil => exact ⟨rfl, ht⟩
  | cons op rest ih =>
      have h1 := step_awaiting t op ht (hops op (by simp))
      have h2 := ih (step t op) h1.2 fun o ho => hops o (by simp [ho])
      rw [run]
      exact ⟨h2.1.trans h1.1, h2.2⟩

theorem attemptFlush_no_x (t : SignalingState) (ok : Bool) (x : String)
    (hd : x ∉ t.dirtyTracks) :
    x ∉ (attemptFlush t ok).dirtyTracks
    ∧ ∀ msg ∈ (attemptFlush t ok).sent, msg ∈ t.sent ∨ noHintFor x msg := by
  refine ⟨attemptFlush_dirty_not_mem t ok x hd, ?_⟩
  intro msg hmsg
  rcases attemptFlush_sent_fresh t ok msg hmsg with h | h
  · exact Or.inl h
  · right
    intro wh hwh
    rw [h] at hwh
    simp only [List.mem_map] at hwh
    obtain ⟨sid2, hsid2, rfl⟩ := hwh
    simp only [makeWireHint]
    intro heq
    exact hd (heq ▸ hsid2)

theorem step_avoids (s : SignalingState) (op : Op) (x : String)
    (hd : x ∉ s.dirtyTracks) (ht : touches op x = false) :
    x ∉ (step s op).dirtyTracks
    ∧ ∀ msg ∈ (step s op).sent, msg ∈ s.sent ∨ noHintFor x msg := by
  cases op with
  | send sid p ok =>
      have hne : sid ≠ x := by simpa [touches] using ht
      have hd2 : x ∉ dirtyAdd s.dirtyTracks sid := by
        rw [mem_dirtyAdd]
        rintro (h | h)
        · exact hd h
        · exact hne h.symm
      exact attemptFlush_no_x
        { s with trackHints := updateHints s.trackHints sid p,
                 dirtyTracks := dirtyAdd s.dirtyTracks sid } ok x hd2
  | delete sid =>
      refine ⟨?_, fun msg h => Or.inl h⟩
      simp only [step, List.mem_filter]
      rintro ⟨h, _⟩
      exact hd h
  | ready kind ok =>
      rw [step]
      split
      · exact attemptFlush_no_x
          { s with transport := true, readyEmitted := true } ok x hd
      · exact ⟨hd, fun msg h => Or.inl h⟩
  | message m ok =>
      rw [step]
      split
      · exact attemptFlush_no_x { s with flushState := FlushState.idle } ok x hd
      · exact ⟨hd, fun msg h => Or.inl h⟩

theorem run_avoids (s : SignalingState) (ops : List Op) (x : String)
    (hd : x ∉ s.dirtyTracks) (hops : ∀ op ∈ ops, touches op x = false) :
    x ∉ (run s ops).dirtyTracks
    ∧ ∀ msg ∈ (run s ops).sent, msg ∈ s.sent ∨ noHintFor x msg := by
  induction ops generalizing s with
  | nil => exact ⟨hd, fun msg h => Or.inl h⟩
  | cons op rest ih =>
      have h1 := step_avoids s op x hd (hops op (by simp))
      have h2 := ih (step s op) h1.1 fun o ho => hops o (by simp [ho])
      rw [run]
      refine ⟨h2.1, ?_⟩
      intro msg hmsg
      rcases h2.2 msg hmsg with h | h
      · exact h1.2 msg h
      · exact Or.inr h

theorem mergePatch_enabled_isSome (st : TrackHintState) (p : Patch) :
    (mergePatch st p).enabled.isSome = (st.enabled.isSome || p.enabled.isSome) := by
  cases hp : p.enabled <;> simp [mergePatch, hp]

theorem mergePatch_renderDimension_isSome (st : TrackHintState) (p : Patch) :
    (mergePatch st p).renderDimension.isSome
      = (st.renderDimension.isSome || p.renderDimension.isSome) := by
  cases hp : p.renderDimension <;> simp [mergePatch, hp]

theorem foldl_mergePatch_enabled (ps : List Patch) (init : TrackHintState) :
    (ps.foldl mergePatch init).enabled.isSome
      = (init.enabled.isSome || ps.any fun p => p.enabled.isSome) := by
  induction ps generalizing init with
  | nil => simp
  | cons p rest ih =>
      simp [List.foldl_cons, ih, mergePatch_enabled_isSome, Bool.or_assoc]

theorem foldl_mergePatch_renderDimension (ps : List Patch) (init : TrackHintState) :
    (ps.foldl mergePatch init).renderDimension.isSome
      = (init.renderDimension.isSome || ps.any fun p => p.renderDimension.isSome) := by
  induction ps generalizing init with
  | nil => simp
  | cons p rest ih =>
      simp [List.foldl_cons, ih, mergePatch_renderDimension_isSome, Bool.or_assoc]

/-- C1: before a flush, successive `sendTrackHint` calls merge field-wise
into the stored per-track state (each later partial patch overwrites only
the fields it specifies), and in Scenario A — `foo` at 100×100, `bar` at
100×100, then `foo` again at 101×101 before the transport resolves —
exactly one outbound message is published, carrying `foo` with dimensions
101×101 followed by `bar` with 100×100; `_trackHints` retains both
entries and `_dirtyTracks` is empty afterward. -/
theorem sendTrackHint_merges_final_values :
    (∀ (s : SignalingState) (sid : String) (p : Patch) (ok : Bool),
        lookupHint (step s (Op.send sid p ok)).trackHints sid
          = some (mergePatch ((lookupHint s.trackHints sid).getD emptyHintState) p))
    ∧ scenarioA.sent
        = [{ type := "render_hints", id := 1, hints :=
            [{ track_sid := "foo", enabled := some true,
               render_dimension := some { width := 101, height := 101 } },
             { track_sid := "bar", enabled := some false,
               render_dimension := some { width := 100, height := 100 } }] }]
    ∧ lookupHint scenarioA.trackHints "foo"
        = some { enabled := some true, renderDimension := some { width := 101, height := 101 } }
    ∧ lookupHint scenarioA.trackHints "bar"
        = some { enabled := some false, renderDimension := some { width := 100, height := 100 } }
    ∧ scenarioA.dirtyTracks = [] := by
  refine ⟨?_, by rfl, by rfl, by rfl, by rfl⟩
  intro s sid p ok
  rw [step, attemptFlush_trackHints]
  exact lookupHint_updateHints_self s.trackHints sid p

/-- C2: at most one batch is in flight — while the machine is in
`AWAITING_REPLY`, no operation other than an inbound `render_hints`
message changes the list of published messages, however many tracks
become dirty in the interim, and every step that does publish leaves the
machine in `AWAITING_REPLY`. -/
theorem single_flight (s : SignalingState) (ops : List Op)
    (hs : s.flushState = FlushState.awaitingReply)
    (hops : ∀ op ∈ ops, isReply op = false) :
    (run s ops).sent = s.sent
    ∧ (run s ops).flushState = FlushState.awaitingReply
    ∧ (∀ (t : SignalingState) (op : Op), (step t op).sent ≠ t.sent →
        (step t op).flushState = FlushState.awaitingReply) := by
  refine ⟨(run_awaiting s ops hs hops).1, (run_awaiting s ops hs hops).2, ?_⟩
  intro t op hne
  cases op with
  | send sid p ok =>
      rw [step] at hne ⊢
      exact attemptFlush_sent_grows _ _ hne
  | delete sid => exact absurd rfl hne
  | ready kind ok =>
      by_cases hg : kind = "data" ∧ t.transport = false
      · rw [step, if_pos hg] at hne ⊢
        exact attemptFlush_sent_grows _ _ hne
      · rw [step, if_neg hg] at hne
        exact absurd rfl hne
  | message m ok =>
      by_cases hg : m.type = "render_hints"
      · rw [step, if_pos hg] at hne ⊢
        exact attemptFlush_sent_grows _ _ hne
      · rw [step, if_neg hg] at hne
        exact absurd rfl hne

/-- Witness for C2: from the concrete awaiting state with `bar` dirty, a
further `sendTrackHint` publishes nothing and the machine stays in
`AWAITING_REPLY`. -/
theorem single_flight_witness :
    (run sAwait [Op.send "bar" patchBar1 true]).sent = sAwait.sent
    ∧ (run sAwait [Op.send "bar" patchBar1 true]).flushState = FlushState.awaitingReply :=
  ⟨(single_flight sAwait [Op.send "bar" patchBar1 true] rfl (by decide)).1,
   (single_flight sAwait [Op.send "bar" patchBar1 true] rfl (by decide)).2.1⟩

/-- C3: in `AWAITING_REPLY`, any inbound message of type `render_hints` —
whatever its subscriber id or per-track result codes — unblocks the
machine: if the transport is bound and the dirty set is non-empty an
immediate flush publishes one batch containing exactly the tracks that
became dirty while awaiting the reply (and the machine is again
`AWAITING_REPLY`); otherwise the machine rests in `IDLE` with nothing
published. -/
theorem reply_unblocks (s : SignalingState) (m : InboundMessage)
    (_hs : s.flushState = FlushState.awaitingReply) (hm : m.type = "render_hints") :
    ((s.transport = true ∧ s.dirtyTracks ≠ []) →
        (step s (Op.message m true)).flushState = FlushState.awaitingReply
        ∧ (step s (Op.message m true)).sent = s.sent ++ [batchMsg s]
        ∧ (step s (Op.message m true)).dirtyTracks = [])
    ∧ ((s.transport = false ∨ s.dirtyTracks = []) →
        (step s (Op.message m true)).flushState = FlushState.idle
        ∧ (step s (Op.message m true)).sent = s.sent) := by
  rw [step, if_pos hm]
  constructor
  · rintro ⟨h1, h3⟩
    rw [attemptFlush_publishes { s with flushState := FlushState.idle } h1 rfl h3]
    exact ⟨rfl, rfl, rfl⟩
  · rintro (h | h)
    · rw [attemptFlush_of_no_transport { s with flushState := FlushState.idle } true h]
      exact ⟨rfl, rfl⟩
    · rw [attemptFlush_of_empty_dirty { s with flushState := FlushState.idle } true h]
      exact ⟨rfl, rfl⟩

/-- Witness for C3: the Scenario B reply (subscriber id 42, results `OK`
and `INVALID_RENDER_HINT`) unblocks the concrete awaiting state and the
batch with the interim-dirty track `bar` goes out at once. -/
theorem reply_unblocks_witness :
    (step sAwait (Op.message serverReply true)).flushState = FlushState.awaitingReply
    ∧ (step sAwait (Op.message serverReply true)).sent = sAwait.sent ++ [batchMsg sAwait]
    ∧ (step sAwait (Op.message serverReply true)).dirtyTracks = [] :=
  (reply_unblocks sAwait serverReply rfl rfl).1 ⟨rfl, by decide⟩

/-- C4: a flush never touches `TrackHints`; it removes from the
`DirtySet` exactly the identifiers of the snapshot it transmitted
(identifiers outside the snapshot stay dirty); and a per-track entry
survives every operation except an explicit `deleteTrackState` for that
very track. -/
theorem flush_removes_exactly_snapshot (s : SignalingState) (op : Op) (sid : String)
    (hsome : (lookupHint s.trackHints sid).isSome = true)
    (hnotdel : op ≠ Op.delete sid) :
    (∀ (t : SignalingState) (ok : Bool), (attemptFlush t ok).trackHints = t.trackHints)
    ∧ (∀ (d snapshot : List String) (x : String),
        x ∈ removeAll d snapshot ↔ x ∈ d ∧ x ∉ snapshot)
    ∧ (lookupHint (step s op).trackHints sid).isSome = true := by
  refine ⟨attemptFlush_trackHints, mem_removeAll, ?_⟩
  cases op with
  | send t p ok =>
      rw [step, attemptFlush_trackHints]
      by_cases ht : t = sid
      · subst ht
        rw [lookupHint_updateHints_self]
        rfl
      · rw [lookupHint_updateHints_ne s.trackHints t sid p ht]
        exact hsome
  | delete t =>
      have ht : t ≠ sid := fun h => hnotdel (by rw [h])
      rw [step]
      show (lookupHint (s.trackHints.filter fun q => q.1 ≠ t) sid).isSome = true
      rw [lookupHint_filter_ne s.trackHints t sid ht]
      exact hsome
  | ready kind ok =>
      rw [step]
      split
      · rw [attemptFlush_trackHints]
        exact hsome
      · exact hsome
  | message m ok =>
      rw [step]
      split
      · rw [attemptFlush_trackHints]
        exact hsome
      · exact hsome

/-- Witness for C4: in the concrete awaiting state, a `sendTrackHint` for
`bar` leaves the stored entry for `foo` in place. -/
theorem flush_removes_exactly_snapshot_witness :
    (lookupHint (step sAwait (Op.send "bar" patchBar1 true)).trackHints "foo").isSome = true :=
  (flush_removes_exactly_snapshot sAwait (Op.send "bar" patchBar1 true) "foo"
    (by rfl) (by decide)).2.2

/-- C5: `deleteTrackState x` synchronously and unconditionally removes
`x` from both `TrackHints` and `DirtySet`, publishes nothing itself, and
after the deletion no sequence of operations that does not touch `x` can
ever produce an outbound message containing a hint for `x`. -/
theorem deleteTrackState_erases (s : SignalingState) (x : String) (ops : List Op)
    (hops : ∀ op ∈ ops, touches op x = false) :
    lookupHint (step s (Op.delete x)).trackHints x = none
    ∧ x ∉ (step s (Op.delete x)).dirtyTracks
    ∧ (step s (Op.delete x)).sent = s.sent
    ∧ ∀ msg ∈ (run (step s (Op.delete x)) ops).sent,
        msg ∈ s.sent ∨ noHintFor x msg := by
  have hdel : x ∉ (step s (Op.delete x)).dirtyTracks := by
    rw [step]
    simp [List.mem_filter]
  refine ⟨?_, hdel, rfl, ?_⟩
  · rw [step]
    exact lookupHint_filter_self s.trackHints x
  · intro msg hmsg
    exact (run_avoids (step s (Op.delete x)) ops x hdel hops).2 msg hmsg

/-- Witness for C5 (Scenario C): hint `foo` before the transport is
ready, delete it, then let the transport bind and hint `bar`; the stored
state and dirty mark for `foo` are gone and its hint was never
published. -/
theorem deleteTrackState_erases_witness :
    lookupHint (step sScenC (Op.delete "foo")).trackHints "foo" = none
    ∧ "foo" ∉ (step sScenC (Op.delete "foo")).dirtyTracks
    ∧ (step sScenC (Op.delete "foo")).sent = sScenC.sent :=
  ⟨(deleteTrackState_erases sScenC "foo" opsScenC (by decide)).1,
   (deleteTrackState_erases sScenC "foo" opsScenC (by decide)).2.1,
   (deleteTrackState_erases sScenC "foo" opsScenC (by decide)).2.2.1⟩

/-- C6: a failed publish behaves as if the flush attempt never left
`IDLE` — nothing is transmitted, the state machine, the `TrackHints` map
and the id counter are untouched, the dirty set keeps exactly its
members (the snapshot is merged back, a union rather than an overwrite,
as `restoreDirty` shows), the failure is appended to the log, and no
exception reaches the caller (the transition function is total). -/
theorem publish_failure_keeps_idle (s : SignalingState) :
    (attemptFlush s false).sent = s.sent
    ∧ (attemptFlush s false).flushState = s.flushState
    ∧ (attemptFlush s false).trackHints = s.trackHints
    ∧ (attemptFlush s false).nextId = s.nextId
    ∧ (∀ x, x ∈ (attemptFlush s false).dirtyTracks ↔ x ∈ s.dirtyTracks)
    ∧ (∀ (current snapshot : List String) (x : String),
        x ∈ restoreDirty current snapshot ↔ x ∈ current ∨ x ∈ snapshot)
    ∧ (s.transport = true → s.flushState = FlushState.idle → s.dirtyTracks ≠ [] →
        (attemptFlush s false).logs = s.logs ++ ["publish failed"]) := by
  unfold attemptFlush
  split <;> rename_i hc
  · refine ⟨rfl, rfl, rfl, rfl, ?_, mem_restoreDirty, fun _ _ _ => rfl⟩
    intro x
    show x ∈ restoreDirty (removeAll s.dirtyTracks s.dirtyTracks) s.dirtyTracks ↔ _
    rw [mem_restoreDirty, mem_removeAll]
    tauto
  · exact ⟨rfl, rfl, rfl, rfl, fun x => Iff.rfl, mem_restoreDirty,
      fun h1 h2 h3 => absurd ⟨h1, h2, h3⟩ hc⟩

/-- Witness for C6: in the concrete bound idle state with `foo` dirty, a
failed publish sends nothing, stays `IDLE`, keeps `foo` dirty and logs
the failure. -/
theorem publish_failure_keeps_idle_witness :
    (attemptFlush sFail false).sent = sFail.sent
    ∧ (attemptFlush sFail false).flushState = sFail.flushState
    ∧ ("foo" ∈ (attemptFlush sFail false).dirtyTracks ↔ "foo" ∈ sFail.dirtyTracks)
    ∧ (attemptFlush sFail false).logs = sFail.logs ++ ["publish failed"] :=
  ⟨(publish_failure_keeps_idle sFail).1,
   (publish_failure_keeps_idle sFail).2.1,
   (publish_failure_keeps_idle sFail).2.2.2.2.1 "foo",
   (publish_failure_keeps_idle sFail).2.2.2.2.2.2 rfl rfl (by decide)⟩

/-- C7: serialization keeps the `track_sid` and copies exactly the
optional fields of the stored state; a field of the state built from a
sequence of partial patches is set if and only if some patch ever set it;
a flush serializes every dirty track's current state this way; and a
track patched only with `enabled` yields a wire hint with no
`render_dimension`. -/
theorem wire_hint_field_presence (s : SignalingState)
    (h1 : s.transport = true) (h2 : s.flushState = FlushState.idle)
    (h3 : s.dirtyTracks ≠ []) :
    (∀ (sid : String) (st : TrackHintState),
        makeWireHint sid st
          = { track_sid := sid, enabled := st.enabled,
              render_dimension := st.renderDimension })
    ∧ (∀ ps : List Patch,
        (applyPatches ps).enabled.isSome = true ↔ ∃ p ∈ ps, p.enabled.isSome = true)
    ∧ (∀ ps : List Patch,
        (applyPatches ps).renderDimension.isSome = true
          ↔ ∃ p ∈ ps, p.renderDimension.isSome = true)
    ∧ (attemptFlush s true).sent = s.sent ++ [batchMsg s]
    ∧ (makeWireHint "t" (applyPatches [{ enabled := some true }])).render_dimension = none := by
  refine ⟨fun sid st => rfl, ?_, ?_, ?_, rfl⟩
  · intro ps
    rw [applyPatches, foldl_mergePatch_enabled]
    simp [emptyHintState, List.any_eq_true]
  · intro ps
    rw [applyPatches, foldl_mergePatch_renderDimension]
    simp [emptyHintState, List.any_eq_true]
  · rw [attemptFlush_publishes s h1 h2 h3]

/-- Witness for C7: the flush of the concrete bound idle state appends
exactly the serialized batch. -/
theorem wire_hint_field_presence_witness :
    (attemptFlush sFail true).sent = sFail.sent ++ [batchMsg sFail] :=
  (wire_hint_field_presence sFail rfl rfl (by decide)).2.2.2.1

/-- C8: at construction the transport reference is unbound, `ready` has
not been emitted and nothing has been published; resolution of the
acquisition with kind `data` binds the transport (from unbound to bound)
and emits `ready`; once bound the transport never becomes unbound again;
and if the acquisition never resolves, any sequence of operations leaves
the transport unbound and transmits nothing — hints merely accumulate. -/
theorem transport_lifecycle :
    initState.transport = false
    ∧ initState.readyEmitted = false
    ∧ initState.sent = []
    ∧ (∀ (s : SignalingState) (ok : Bool), s.transport = false →
        (step s (Op.ready "data" ok)).transport = true
        ∧ (step s (Op.ready "data" ok)).readyEmitted = true)
    ∧ (∀ (s : SignalingState) (op : Op), s.transport = true → (step s op).transport = true)
    ∧ (∀ ops : List Op, (∀ op ∈ ops, ∀ k o, op ≠ Op.ready k o) →
        (run initState ops).transport = false ∧ (run initState ops).sent = []) := by
  refine ⟨rfl, rfl, rfl, ?_, step_transport_mono, ?_⟩
  · intro s ok h
    rw [step, if_pos ⟨rfl, h⟩]
    exact ⟨by rw [attemptFlush_transport], by rw [attemptFlush_readyEmitted]⟩
  · intro ops hops
    exact run_unbound initState ops rfl hops

/-- Witness for C8: binding the transport of a fresh component sets the
handle and emits `ready`; a fresh component that only receives
`sendTrackHint` calls stays unbound and publishes nothing. -/
theorem transport_lifecycle_witness :
    ((step initState (Op.ready "data" true)).transport = true
      ∧ (step initState (Op.ready "data" true)).readyEmitted = true)
    ∧ ((run initState [Op.send "foo" patchFoo1 true]).transport = false
      ∧ (run initState [Op.send "foo" patchFoo1 true]).sent = []) :=
  ⟨transport_lifecycle.2.2.2.1 initState true rfl,
   transport_lifecycle.2.2.2.2.2 [Op.send "foo" patchFoo1 true] (by
      intro op hop k o
      simp only [List.mem_singleton] at hop
      subst hop
      simp)⟩

end RenderHints

namespace Workaround180748

theorem doWorkaround_calls_le (o : Nat → AttemptResult) (audio : Bool) :
    ∀ (k attempt : Nat) (n : Int), n.toNat ≤ k →
      (doWorkaround o audio attempt n).1 ≤ n.toNat + 1 := by
  intro k
  induction k with
  | zero =>
      intro attempt n hn
      rw [doWorkaround]
      cases ho : o attempt with
      | gumError e => simp
      | silent =>
          have hle : n ≤ 0 := by omega
          simp [hle]
      | nonSilent => simp
  | succ k ih =>
      intro attempt n hn
      rw [doWorkaround]
      cases ho : o attempt with
      | gumError e => simp
      | silent =>
          by_cases ha : audio
          · subst ha
            by_cases hle : n ≤ 0
            · simp [hle]
            · have h2 : (n - 1).toNat ≤ k := by omega
              have hrec := ih (attempt + 1) (n - 1) h2
              simp only [hle, if_true, if_false, ite_true, ite_false]
              omega
          · simp [ha]
      | nonSilent => simp

theorem doWorkaround_all_silent (o : Nat → AttemptResult) (audio : Bool)
    (ho : ∀ i, o i = AttemptResult.silent) :
    ∀ (k attempt : Nat) (n : Int), n.toNat = k →
      doWorkaround o audio attempt n =
        if audio then (n.toNat + 1, Except.ok (attempt + n.toNat)) else (1, Except.ok attempt) := by
  intro k
  induction k with
  | zero =>
      intro attempt n hn
      rw [doWorkaround]
      have hle : n ≤ 0 := by omega
      simp [ho attempt, hle, hn]
  | succ k ih =>
      intro attempt n hn
      rw [doWorkaround]
      have hle : ¬ n ≤ 0 := by omega
      have h2 : (n - 1).toNat = k := by omega
      have hrec := ih (attempt + 1) (n - 1) h2
      by_cases ha : audio
      · subst ha
        simp only [ho attempt, hle, if_true, if_false, ite_true, ite_false, hrec]
        simp only [Prod.mk.injEq, Except.ok.injEq, if_true, ite_true]
        omega
      · simp [ho attempt, ha]

theorem doWorkaround_error_from_gum (o : Nat → AttemptResult) (audio : Bool) :
    ∀ (k attempt : Nat) (n : Int), n.toNat ≤ k → ∀ e : String,
      (doWorkaround o audio attempt n).2 = Except.error e →
      ∃ i, o i = AttemptResult.gumError e := by
  intro k
  induction k with
  | zero =>
      intro attempt n hn e he
      rw [doWorkaround] at he
      cases ho : o attempt with
      | gumError e2 =>
          refine ⟨attempt, ?_⟩
          simp only [ho] at he ⊢
          simp at he
          rw [he]
      | silent =>
          have hle : n ≤ 0 := by omega
          simp [ho, hle] at he
      | nonSilent => simp [ho] at he
  | succ k ih =>
      intro attempt n hn e he
      rw [doWorkaround] at he
      cases ho : o attempt with
      | gumError e2 =>
          refine ⟨attempt, ?_⟩
          simp only [ho] at he ⊢
          simp at he
          rw [he]
      | silent =>
          by_cases ha : audio
          · subst ha
            by_cases hle : n ≤ 0
            · simp [ho, hle] at he
            · simp only [ho, hle, if_true, if_false, ite_true, ite_false] at he
              exact ih (attempt + 1) (n - 1) (by omega) e he
          · simp [ho, ha] at he
      | nonSilent => simp [ho] at he

theorem workaround_result_passthrough (o : Nat → AttemptResult) (audio : Bool)
    (nOpt : Option Int) :
    (workaround o audio nOpt).1.2 = (doWorkaround o audio 0 (defaultRetries nOpt)).2 := by
  unfold workaround
  cases h : (doWorkaround o audio 0 (defaultRetries nOpt)).2 with
  | error e => simp [h]
  | ok s => simp [h]

/-- C9: the audio-capture workaround is a bounded retry loop — for every
retry budget and every sequence of attempt outcomes the recursion
terminates (the function is total) making at most `n + 1` calls to
`getUserMedia`; a missing numeric budget defaults to 3; the bound holds
for the outer `workaround` with the defaulted budget; and once the budget
is exhausted the possibly-silent stream is returned rather than retried,
as the exact value on an always-silent run shows. -/
theorem workaround_retry_bounded :
    (∀ (o : Nat → AttemptResult) (audio : Bool) (attempt : Nat) (n : Int),
        (doWorkaround o audio attempt n).1 ≤ n.toNat + 1)
    ∧ defaultRetries none = 3
    ∧ (∀ (o : Nat → AttemptResult) (audio : Bool) (nOpt : Option Int),
        (workaround o audio nOpt).1.1 ≤ (defaultRetries nOpt).toNat + 1)
    ∧ (∀ (o : Nat → AttemptResult) (audio : Bool) (attempt : Nat) (n : Int),
        (∀ i, o i = AttemptResult.silent) →
        doWorkaround o audio attempt n
          = if audio then (n.toNat + 1, Except.ok (attempt + n.toNat))
            else (1, Except.ok attempt)) := by
  have hb : ∀ (o : Nat → AttemptResult) (audio : Bool) (attempt : Nat) (n : Int),
      (doWorkaround o audio attempt n).1 ≤ n.toNat + 1 :=
    fun o audio attempt n => doWorkaround_calls_le o audio n.toNat attempt n le_rfl
  refine ⟨hb, rfl, ?_, ?_⟩
  · intro o audio nOpt
    unfold workaround
    cases h : (doWorkaround o audio 0 (defaultRetries nOpt)).2 with
    | error e =>
        simp only [h]
        exact hb o audio 0 (defaultRetries nOpt)
    | ok s =>
        simp only [h]
        exact hb o audio 0 (defaultRetries nOpt)
  · intro o audio attempt n ho
    exact doWorkaround_all_silent o audio ho n.toNat attempt n rfl

/-- Witness for C9: with every attempt silent and the default-shaped
budget 3, the loop stops after exactly 4 `getUserMedia` calls and still
returns the silent stream. -/
theorem workaround_retry_bounded_witness :
    doWorkaround (fun _ => AttemptResult.silent) true 0 3 = (4, Except.ok 3) := by
  have h := workaround_retry_bounded.2.2.2 (fun _ => AttemptResult.silent) true 0 3
    (fun _ => rfl)
  simpa using h

theorem workaround_calls_passthrough (o : Nat → AttemptResult) (audio : Bool)
    (nOpt : Option Int) :
    (workaround o audio nOpt).1.1 = (doWorkaround o audio 0 (defaultRetries nOpt)).1 := by
  unfold workaround
  cases h : (doWorkaround o audio 0 (defaultRetries nOpt)).2 with
  | error e => simp [h]
  | ok s => simp [h]

theorem doWorkaround_error_index (o : Nat → AttemptResult) (audio : Bool) :
    ∀ (k attempt : Nat) (n : Int), n.toNat ≤ k → ∀ e : String,
      (doWorkaround o audio attempt n).2 = Except.error e →
      o (attempt + (doWorkaround o audio attempt n).1 - 1) = AttemptResult.gumError e := by
  intro k
  induction k with
  | zero =>
      intro attempt n hn e he
      rw [doWorkaround] at he ⊢
      cases ho : o attempt with
      | gumError e2 =>
          simp only [ho] at he ⊢
          simp at he
          subst he
          simpa using ho
      | silent =>
          have hle : n ≤ 0 := by omega
          simp [ho, hle] at he
      | nonSilent => simp [ho] at he
  | succ k ih =>
      intro attempt n hn e he
      rw [doWorkaround] at he ⊢
      cases ho : o attempt with
      | gumError e2 =>
          simp only [ho] at he ⊢
          simp at he
          subst he
          simpa using ho
      | silent =>
          by_cases ha : audio
          · subst ha
            by_cases hle : n ≤ 0
            · simp [ho, hle] at he
            · simp only [ho, hle, if_true, if_false, ite_true, ite_false] at he ⊢
              have hidx := ih (attempt + 1) (n - 1) (by omega) e he
              have harith :
                  attempt + (1 + (doWorkaround o true (attempt + 1) (n - 1)).1) - 1
                    = attempt + 1 + (doWorkaround o true (attempt + 1) (n - 1)).1 - 1 := by
                omega
              rw [harith]
              exact hidx
          · simp [ho, ha] at he
      | nonSilent => simp [ho] at he

/-- C10: the workaround acquires the `AudioContext` holder and, on every
completion path — success and failure alike — releases it exactly once:
for every oracle, audio flag and budget, the event trace is one acquire
followed by one release, unconditionally.  The retry loop's result
passes through untouched, so on success the workaround resolves with the
stream and on failure it rethrows the original error unchanged: any
propagated error is exactly the `getUserMedia` error of the attempt at
which the run stopped. -/
theorem workaround_balanced_release (o : Nat → AttemptResult) (audio : Bool)
    (nOpt : Option Int) :
    (workaround o audio nOpt).2 = [REvent.acquire, REvent.release]
    ∧ (workaround o audio nOpt).1.2 = (doWorkaround o audio 0 (defaultRetries nOpt)).2
    ∧ (∀ e : String, (workaround o audio nOpt).1.2 = Except.error e →
        o ((workaround o audio nOpt).1.1 - 1) = AttemptResult.gumError e) := by
  refine ⟨?_, workaround_result_passthrough o audio nOpt, ?_⟩
  · unfold workaround
    cases h : (doWorkaround o audio 0 (defaultRetries nOpt)).2 with
    | error e2 => simp [h]
    | ok s => simp [h]
  · intro e he
    rw [workaround_result_passthrough o audio nOpt] at he
    rw [workaround_calls_passthrough o audio nOpt]
    have h := doWorkaround_error_index o audio
      (defaultRetries nOpt).toNat 0 (defaultRetries nOpt) le_rfl e he
    simpa using h

/-- Witness for C10: a successful run (non-silent first attempt, budget
3) and a failing run (`getUserMedia` denied on the first attempt, budget
defaulted) each produce exactly one acquire and one release; in the
failing run the propagated error is the `getUserMedia` error of the
attempt at which the run stopped. -/
theorem workaround_balanced_release_witness :
    (workaround (fun _ => AttemptResult.nonSilent) true (some 3)).2
        = [REvent.acquire, REvent.release]
    ∧ (workaround (fun _ => AttemptResult.gumError "denied") true none).2
        = [REvent.acquire, REvent.release]
    ∧ (fun _ => AttemptResult.gumError "denied")
        ((workaround (fun _ => AttemptResult.gumError "denied") true none).1.1 - 1)
        = AttemptResult.gumError "denied" :=
  ⟨(workaround_balanced_release (fun _ => AttemptResult.nonSilent) true (some 3)).1,
   (workaround_balanced_release (fun _ => AttemptResult.gumError "denied") true none).1,
   (workaround_balanced_release (fun _ => AttemptResult.gumError "denied") true none).2.2
      "denied" (by rw [workaround_result_passthrough, doWorkaround])⟩

end Workaround180748
